import Mathlib

/-!
Verification of the SPHinXsys spatial neighbor-search and boundary-condition
core, shallowly embedded from
`src/SPHINXsys/src/for_2D_build/bodies/body_relation.hpp` and
`src/SPHINXsys/src/shared/particle_dynamics/general_dynamics/general_dynamics.cpp`.

Positions and velocities are 2-vectors of rationals (`Fin 2 → ℚ`), modelling the
2D build's `Vecd` with exact arithmetic in place of `double`.
-/

namespace SPHVerify

/-- The 2D `Vecd` vector of coordinates, one rational per axis. -/
abbrev Vecd : Type := Fin 2 → ℚ

/-- Squared Euclidean norm, the `normSqr()` used for the cheap distance
rejection in the relation builder. -/
def normSqr (v : Vecd) : ℚ := v 0 * v 0 + v 1 * v 1

/-- Full per-particle state: position `pos_n_`, velocity `vel_n_`, and one
stand-in scalar `other` representing all remaining per-attribute arrays
(density, pressure, ...) that boundary handling copies verbatim. -/
structure Particle where
  pos : Vecd
  vel : Vecd
  other : ℚ
deriving DecidableEq

/-! ## Mirror boundary condition
From `MirrorBoundaryConditionInAxisDirection` in `general_dynamics.cpp`. -/

/-- `MirrorBounding::mirrorInAxisDirection`: reflect the position across the
boundary plane along `axis_direction` and negate that velocity component
(lines 256-262 of `general_dynamics.cpp`). -/
def mirrorInAxisDirection (p : Particle) (body_bound : Vecd) (axis_direction : Fin 2) :
    Particle :=
  { p with
    pos := Function.update p.pos axis_direction
      (2 * body_bound axis_direction - p.pos axis_direction),
    vel := Function.update p.vel axis_direction (p.vel axis_direction * (-1)) }

/-- The `positive` flag of a per-side bounding object, resolved as the
two-variant tag the design notes call for: `lower` is `positive = false`,
`upper` is `positive = true`. -/
inductive Side : Type
  | lower : Side
  | upper : Side

/-- `CreatingGhostParticles::checkLowerBound` / `checkUpperBound`
(lines 264-296 of `general_dynamics.cpp`): when the particle lies strictly
within one `cell_spacing_` inside the chosen bound, a ghost is allocated as a
full copy of the real particle (`insertAGhostParticle`, which the external
particle container specifies as copying all attributes) and then mirrored in
place; otherwise no ghost is produced. -/
def mirrorCreatingGhost (side : Side) (body_lower_bound body_upper_bound : Vecd)
    (cell_spacing : ℚ) (axis : Fin 2) (p : Particle) : Option Particle :=
  match side with
  | Side.lower =>
    if p.pos axis > body_lower_bound axis ∧
        p.pos axis < body_lower_bound axis + cell_spacing then
      some (mirrorInAxisDirection p body_lower_bound axis)
    else none
  | Side.upper =>
    if p.pos axis < body_upper_bound axis ∧
        p.pos axis > body_upper_bound axis - cell_spacing then
      some (mirrorInAxisDirection p body_upper_bound axis)
    else none

/-- The bound a given side mirrors across. -/
def Side.bound (side : Side) (body_lower_bound body_upper_bound : Vecd) : Vecd :=
  match side with
  | Side.lower => body_lower_bound
  | Side.upper => body_upper_bound

/-! ## Periodic boundary condition
From `PeriodicConditionInAxisDirection` and
`PeriodicConditionInAxisDirectionUsingGhostParticles` in `general_dynamics.cpp`. -/

/-- The periodic translation vector: zero except along the periodic axis,
where it is `body_upper_bound_[axis_] - body_lower_bound_[axis_]`
(line 74 of `general_dynamics.cpp`). -/
def periodicTranslationVec (body_lower_bound body_upper_bound : Vecd) (axis : Fin 2) :
    Vecd :=
  Function.update (fun _ => (0 : ℚ)) axis
    (body_upper_bound axis - body_lower_bound axis)

/-- `PeriodicConditionInAxisDirection::setPeriodicTranslation`
(lines 72-80 of `general_dynamics.cpp`): stores the translation vector, but
exits fatally (`none`) when `periodic_translation_.norm() < particle_spacing`.
Over ℚ the norm comparison `‖t‖ < s` is expressed equivalently as
`0 < s ∧ normSqr t < s^2` (both sides of the original comparison are
nonnegative reals). -/
def setPeriodicTranslation (body_lower_bound body_upper_bound : Vecd) (axis : Fin 2)
    (particle_spacing : ℚ) : Option Vecd :=
  let t := periodicTranslationVec body_lower_bound body_upper_bound axis
  if 0 < particle_spacing ∧ normSqr t < particle_spacing ^ 2 then none else some t

/-- `PeriodicBounding::checkLowerBound` (lines 82-86): if the coordinate along
the periodic axis is strictly below the lower bound, add one periodic
translation to that coordinate; otherwise leave the particle untouched. -/
def periodicBoundingCheckLowerBound (body_lower_bound translation : Vecd)
    (axis : Fin 2) (p : Particle) : Particle :=
  if p.pos axis < body_lower_bound axis then
    { p with pos := Function.update p.pos axis (p.pos axis + translation axis) }
  else p

/-- `PeriodicBounding::checkUpperBound` (lines 88-92): if the coordinate along
the periodic axis is strictly above the upper bound, subtract one periodic
translation from that coordinate; otherwise leave the particle untouched. -/
def periodicBoundingCheckUpperBound (body_upper_bound translation : Vecd)
    (axis : Fin 2) (p : Particle) : Particle :=
  if p.pos axis > body_upper_bound axis then
    { p with pos := Function.update p.pos axis (p.pos axis - translation axis) }
  else p

/-- `CreatPeriodicGhostParticles::checkLowerBound` (lines 140-153): a real
particle strictly within one `cell_spacing_` above the lower bound produces a
ghost registered at `position + periodic_translation_`; result is the
registered ghost position, if any. -/
def periodicGhostLower (body_lower_bound body_upper_bound : Vecd) (cell_spacing : ℚ)
    (axis : Fin 2) (particle_position : Vecd) : Option Vecd :=
  if particle_position axis > body_lower_bound axis ∧
      particle_position axis < body_lower_bound axis + cell_spacing then
    some (particle_position + periodicTranslationVec body_lower_bound body_upper_bound axis)
  else none

/-- `CreatPeriodicGhostParticles::checkUpperBound` (lines 155-168): a real
particle strictly within one `cell_spacing_` below the upper bound produces a
ghost registered at `position - periodic_translation_`. -/
def periodicGhostUpper (body_lower_bound body_upper_bound : Vecd) (cell_spacing : ℚ)
    (axis : Fin 2) (particle_position : Vecd) : Option Vecd :=
  if particle_position axis < body_upper_bound axis ∧
      particle_position axis > body_upper_bound axis - cell_spacing then
    some (particle_position - periodicTranslationVec body_lower_bound body_upper_bound axis)
  else none

/-- All ghost positions the periodic create pass produces for one real
particle: the lower-side check and the upper-side check, each contributing at
most one ghost. -/
def periodicCreateGhostPositions (body_lower_bound body_upper_bound : Vecd)
    (cell_spacing : ℚ) (axis : Fin 2) (particle_position : Vecd) : List Vecd :=
  (periodicGhostLower body_lower_bound body_upper_bound cell_spacing axis
      particle_position).toList ++
    (periodicGhostUpper body_lower_bound body_upper_bound cell_spacing axis
      particle_position).toList

/-- `PeriodicConditionInAxisDirection::exec` (lines 94-99): unconditionally
prints a diagnostic and exits; no particle state is touched, no result is
produced. -/
def periodicConditionExec (particles : List Particle) (dt : ℚ) :
    Except String (List Particle) :=
  Except.error "\n Error: each step should be called separately."

/-- `PeriodicConditionInAxisDirection::parallel_exec` (lines 101-106): same
unconditional diagnostic-and-exit as `exec`. -/
def periodicConditionParallelExec (particles : List Particle) (dt : ℚ) :
    Except String (List Particle) :=
  Except.error "\n Error: each step should be called separately."

/-! ## Spatial grid (cell-linked list)
The mesh itself (`mesh_cell_linked_list`) is not among the provided sources;
its contract is taken from the specification. -/

/-- Modelled from the spec: `cellFor(position)` along one dimension, the affine
map `floor((position - lower_bound)/cell_spacing)` of the data model, clamped
silently into `[0, number_of_cells - 1]` when the position lies outside the
nominal bounds (`GridIndexFromPosition` of `mesh_cell_linked_list`, absent from
the provided sources). -/
def gridIndex1D (mesh_lower_bound cell_spacing : ℚ) (number_of_cells : ℕ)
    (x : ℚ) : ℤ :=
  min (max ⌊(x - mesh_lower_bound) / cell_spacing⌋ 0) ((number_of_cells : ℤ) - 1)

/-- Modelled from the spec: the 2D `GridIndexFromPosition`, one clamped cell
coordinate per axis. -/
def gridIndexFromPosition (mesh_lower_bound : Vecd) (cell_spacing : ℚ)
    (number_of_cells : Fin 2 → ℕ) (position : Vecd) : Fin 2 → ℤ :=
  fun k => gridIndex1D (mesh_lower_bound k) cell_spacing (number_of_cells k) (position k)

/-- Modelled from the spec: the contents of cell `(l, m)` after `rebuild` over
the entry list `particles` (index-position pairs). The spec's cell invariant —
the union of all cells' entries is the whole particle set, each entry exactly
once, placed by its computed cell coordinate — makes the cell contents exactly
the entries whose clamped grid index is `(l, m)`. -/
def cellListData (particles : List (ℕ × Vecd)) (mesh_lower_bound : Vecd)
    (cell_spacing : ℚ) (number_of_cells : Fin 2 → ℕ) (l m : ℤ) : List (ℕ × Vecd) :=
  particles.filter fun e =>
    decide (gridIndexFromPosition mesh_lower_bound cell_spacing number_of_cells e.2 0 = l) &&
      decide (gridIndexFromPosition mesh_lower_bound cell_spacing number_of_cells e.2 1 = m)

/-- The list of integers from `a` to `b` inclusive (empty when `b < a`),
the index sequence of a C `for` loop from `a` to `b`. -/
def intRange (a b : ℤ) : List ℤ :=
  (List.range (b + 1 - a).toNat).map fun k : ℕ => a + (k : ℤ)

/-- The cell-window loop bounds of `updateConfigurationForParticles`
(body_relation.hpp lines 50-51): from `SMAX(home - search_range, 0)` to
`SMIN(home + search_range, number_of_cells - 1)` in one dimension. -/
def searchWindow (home : ℤ) (search_range : ℤ) (number_of_cells : ℕ) : List ℤ :=
  intRange (max (home - search_range) 0) (min (home + search_range) ((number_of_cells : ℤ) - 1))

/-- `SPHBodyContactRelation::updateConfigurationForParticles`, the per-particle
body of the parallel loop (body_relation.hpp lines 39-69), returning the list
of accepted neighbor indices in traversal order: locate the home cell of
`particle_position` in the target body's grid, scan the clamped
`search_range`-cell window, and accept every candidate whose squared
displacement is at most `cutoff_radius_sqr`. -/
def updateConfigurationForParticle (target_particles : List (ℕ × Vecd))
    (mesh_lower_bound : Vecd) (cell_spacing : ℚ) (number_of_cells : Fin 2 → ℕ)
    (search_range : ℤ) (cutoff_radius_sqr : ℚ) (particle_position : Vecd) : List ℕ :=
  let i : ℤ := gridIndexFromPosition mesh_lower_bound cell_spacing number_of_cells
    particle_position 0
  let j : ℤ := gridIndexFromPosition mesh_lower_bound cell_spacing number_of_cells
    particle_position 1
  (searchWindow i search_range (number_of_cells 0)).flatMap fun l =>
    (searchWindow j search_range (number_of_cells 1)).flatMap fun m =>
      ((cellListData target_particles mesh_lower_bound cell_spacing number_of_cells l m).filter
        fun e => decide (normSqr (particle_position - e.2) ≤ cutoff_radius_sqr)).map
        Prod.fst

/-- The exhaustive all-pairs reference search: every particle of the source
body whose squared displacement from `particle_position` is at most
`cutoff_radius_sqr`, in source order. -/
def allPairsNeighbors (target_particles : List (ℕ × Vecd)) (cutoff_radius_sqr : ℚ)
    (particle_position : Vecd) : List ℕ :=
  (target_particles.filter fun e =>
    decide (normSqr (particle_position - e.2) ≤ cutoff_radius_sqr)).map Prod.fst

/-- A position is within the grid bounds when each coordinate lies in the
half-open slab `[lower, lower + number_of_cells * cell_spacing)` covered by the
grid's cells. -/
def inGridBounds (mesh_lower_bound : Vecd) (cell_spacing : ℚ)
    (number_of_cells : Fin 2 → ℕ) (position : Vecd) : Prop :=
  ∀ k : Fin 2, mesh_lower_bound k ≤ position k ∧
    position k < mesh_lower_bound k + (number_of_cells k : ℚ) * cell_spacing

instance (mesh_lower_bound : Vecd) (cell_spacing : ℚ) (number_of_cells : Fin 2 → ℕ)
    (position : Vecd) :
    Decidable (inGridBounds mesh_lower_bound cell_spacing number_of_cells position) := by
  unfold inGridBounds
  infer_instance

/-! ## Neighborhood buffer
From the accept branch of `updateConfigurationForParticles`
(body_relation.hpp lines 58-66 and 69). -/

/-- A per-particle neighborhood buffer: `entries` are the allocated slots
(so `memory_size_` is `entries.length`) and `current_size_` counts the slots
valid this step. Slot contents are the neighbor indices; the displacement and
kernel values recorded alongside are determined by the same index and are
omitted. -/
structure Neighborhood where
  entries : List ℕ
  current_size_ : ℕ
deriving DecidableEq

/-- The capacity `memory_size_` of a neighborhood. -/
def Neighborhood.memory_size (nb : Neighborhood) : ℕ := nb.entries.length

/-- One accepted candidate (body_relation.hpp lines 60-64): when the running
count has reached the capacity, `createNeighborRelation` appends a new slot
(modelled from the spec: append past capacity, growing it by one); otherwise
`initializeNeighborRelation` overwrites the slot at the running count in place
(modelled from the spec: overwrite within capacity). -/
def writeNeighbor (nb : Neighborhood) (current_count_of_neighbors : ℕ) (e : ℕ) :
    Neighborhood :=
  if current_count_of_neighbors ≥ nb.memory_size then
    { nb with entries := nb.entries ++ [e] }
  else
    { nb with entries := nb.entries.set current_count_of_neighbors e }

/-- The whole relation-build step for one particle's neighborhood: fold the
accepted candidates through `writeNeighbor` with the running count starting at
zero, then set `current_size_` to the total accepted count
(body_relation.hpp lines 49, 58-66, 69). -/
def updateNeighborhood (nb : Neighborhood) (accepted : List ℕ) : Neighborhood :=
  let built := (accepted.foldl
    (fun (st : Neighborhood × ℕ) e => (writeNeighbor st.1 st.2 e, st.2 + 1)) (nb, 0)).1
  { built with current_size_ := accepted.length }

/-! ## Reduction utilities
From `BodyLowerBound` / `BodyUpperBound` (general_dynamics.cpp lines 373-400)
and the generic reduce contract of the spec. -/

/-- Modelled from the spec: the generic particle reduce (`ParticleDynamicsReduce`,
absent from the provided sources) combines the per-particle values with the
associative, commutative combiner, seeded with `initial_reference_`; with such
a combiner every thread partitioning gives the value of this sequential fold. -/
def particleReduce (combiner : Vecd → Vecd → Vecd) (initial_reference : Vecd)
    (positions : List Vecd) : Vecd :=
  positions.foldl combiner initial_reference

/-- Modelled from the spec: the `ReduceLowerBound` combiner, componentwise
minimum. -/
def reduceLowerBoundOp (a b : Vecd) : Vecd := fun k => min (a k) (b k)

/-- Modelled from the spec: the `ReduceUpperBound` combiner, componentwise
maximum. -/
def reduceUpperBoundOp (a b : Vecd) : Vecd := fun k => max (a k) (b k)

/-- The value of `(std::numeric_limits<double>::max)()`, the largest finite
double, as an exact rational. -/
def max_real_number : ℚ := (2 - (1 / 2) ^ 52) * 2 ^ 1023

/-- The value of `(std::numeric_limits<double>::min)()`, the smallest positive
normalized double `2^(-1022)`, as an exact rational. Note this is a tiny
positive number, not the most negative double. -/
def min_real_number : ℚ := 1 / 2 ^ 1022

/-- `BodyLowerBound` (general_dynamics.cpp lines 373-385): reduce the particle
positions with the lower-bound combiner, seeded with
`initial_reference_ = Vecd(max_real_number)`. -/
def bodyLowerBound (positions : List Vecd) : Vecd :=
  particleReduce reduceLowerBoundOp (fun _ => max_real_number) positions

/-- `BodyUpperBound` (general_dynamics.cpp lines 387-400): reduce the particle
positions with the upper-bound combiner, seeded with
`initial_reference_ = Vecd(min_real_number)`. -/
def bodyUpperBound (positions : List Vecd) : Vecd :=
  particleReduce reduceUpperBoundOp (fun _ => min_real_number) positions

/-! ## Statement bundles
Conjunctions of the per-claim guarantees, shared between a theorem and its
concrete witness instantiation. -/

/-- The mirror-ghost state contract: the ghost's position along the mirror
axis is the reflection `2*bound - real`, its velocity along the axis is
negated, and every other component of position and velocity, as well as every
other attribute, equals the originating real particle's value. -/
def MirrorGhostSpec (p g : Particle) (bound : Vecd) (axis : Fin 2) : Prop :=
  g.pos axis = 2 * bound axis - p.pos axis ∧
  g.vel axis = -(p.vel axis) ∧
  (∀ k : Fin 2, k ≠ axis → g.pos k = p.pos k ∧ g.vel k = p.vel k) ∧
  g.other = p.other

/-- The frame contract of the periodic real-particle wrapping pass: each check
modifies a particle exactly when its axis coordinate is strictly outside the
corresponding bound, the only modification is one periodic translation of that
single coordinate, everything else is untouched, and one invocation cannot
recover a particle displaced by more than one period. -/
def PeriodicBoundingSpec (body_lower_bound body_upper_bound translation : Vecd)
    (axis : Fin 2) (p : Particle) : Prop :=
  (p.pos axis < body_lower_bound axis →
    (periodicBoundingCheckLowerBound body_lower_bound translation axis p).pos axis =
      p.pos axis + translation axis) ∧
  (¬p.pos axis < body_lower_bound axis →
    periodicBoundingCheckLowerBound body_lower_bound translation axis p = p) ∧
  (∀ k : Fin 2, k ≠ axis →
    (periodicBoundingCheckLowerBound body_lower_bound translation axis p).pos k = p.pos k) ∧
  (periodicBoundingCheckLowerBound body_lower_bound translation axis p).vel = p.vel ∧
  (periodicBoundingCheckLowerBound body_lower_bound translation axis p).other = p.other ∧
  (body_upper_bound axis < p.pos axis →
    (periodicBoundingCheckUpperBound body_upper_bound translation axis p).pos axis =
      p.pos axis - translation axis) ∧
  (¬body_upper_bound axis < p.pos axis →
    periodicBoundingCheckUpperBound body_upper_bound translation axis p = p) ∧
  (∀ k : Fin 2, k ≠ axis →
    (periodicBoundingCheckUpperBound body_upper_bound translation axis p).pos k = p.pos k) ∧
  (periodicBoundingCheckUpperBound body_upper_bound translation axis p).vel = p.vel ∧
  (periodicBoundingCheckUpperBound body_upper_bound translation axis p).other = p.other ∧
  (p.pos axis < body_lower_bound axis - translation axis →
    (periodicBoundingCheckLowerBound body_lower_bound translation axis p).pos axis <
      body_lower_bound axis) ∧
  (body_upper_bound axis + translation axis < p.pos axis →
    body_upper_bound axis <
      (periodicBoundingCheckUpperBound body_upper_bound translation axis p).pos axis)

/-! # Theorems -/

/-- Claim C2: for every axis and side with a mirror boundary, the ghost the
mirror create pass produces for a real particle reflects the position across
the bound along the axis (`2*bound - real`), negates the velocity component
along the axis, and copies every other position and velocity component and
every other attribute unchanged. -/
theorem mirror_ghost_attributes (side : Side) (body_lower_bound body_upper_bound : Vecd)
    (cell_spacing : ℚ) (axis : Fin 2) (p g : Particle)
    (h : mirrorCreatingGhost side body_lower_bound body_upper_bound cell_spacing axis p =
      some g) :
    MirrorGhostSpec p g (side.bound body_lower_bound body_upper_bound) axis := by
  have hg : g = mirrorInAxisDirection p (side.bound body_lower_bound body_upper_bound) axis := by
    cases side <;> simp only [mirrorCreatingGhost, Side.bound] at h ⊢ <;> split at h <;>
      simp_all
  subst hg
  refine ⟨?_, ?_, fun k hk => ⟨?_, ?_⟩, rfl⟩
  · simp [mirrorInAxisDirection]
  · simp [mirrorInAxisDirection]
  · simp [mirrorInAxisDirection, Function.update_noteq hk]
  · simp [mirrorInAxisDirection, Function.update_noteq hk]

/-- Witness for C2: a concrete particle near the upper bound, with the create
pass producing its mirrored ghost. -/
theorem mirror_ghost_attributes_witness :
    mirrorCreatingGhost Side.upper ![0, 0] ![1, 1] 1 0 ⟨![3/4, 2], ![2, 5], 7⟩ =
      some (mirrorInAxisDirection ⟨![3/4, 2], ![2, 5], 7⟩
        (Side.bound Side.upper ![0, 0] ![1, 1]) 0) ∧
    MirrorGhostSpec ⟨![3/4, 2], ![2, 5], 7⟩
      (mirrorInAxisDirection ⟨![3/4, 2], ![2, 5], 7⟩ (Side.bound Side.upper ![0, 0] ![1, 1]) 0)
      (Side.bound Side.upper ![0, 0] ![1, 1]) 0 :=
  ⟨by with_unfolding_all rfl,
   mirror_ghost_attributes Side.upper ![0, 0] ![1, 1] 1 0 _ _ (by with_unfolding_all rfl)⟩

/-- Counterexample to claim C4: a single particle exactly at the upper bound
(coordinate `1` with upper bound `1`) produces no ghost at all in the mirror
create pass — not the one coinciding ghost the claim requires. -/
theorem mirror_boundary_exact_counterexample :
    (Particle.mk ![1, 0] ![0, 0] 0).pos 0 = (![1, 1] : Vecd) 0 ∧
      mirrorCreatingGhost Side.upper ![0, 0] ![1, 1] 1 0 ⟨![1, 0], ![0, 0], 0⟩ = none := by
  with_unfolding_all decide

/-- Claim C4 as amended: a particle whose coordinate along the mirror axis is
exactly the upper bound is rejected by the strict guard of the create pass, so
no ghost is created for it. -/
theorem mirror_boundary_exact_no_ghost (body_lower_bound body_upper_bound : Vecd)
    (cell_spacing : ℚ) (axis : Fin 2) (p : Particle)
    (h : p.pos axis = body_upper_bound axis) :
    mirrorCreatingGhost Side.upper body_lower_bound body_upper_bound cell_spacing axis p =
      none := by
  simp only [mirrorCreatingGhost]
  rw [if_neg]
  rintro ⟨h1, -⟩
  rw [h] at h1
  exact lt_irrefl _ h1

/-- Witness for the amended C4: another boundary-exact particle, create pass
produces nothing. -/
theorem mirror_boundary_exact_no_ghost_witness :
    (Particle.mk ![2, 3] ![0, 0] 0).pos 0 = (![2, 5] : Vecd) 0 ∧
      mirrorCreatingGhost Side.upper ![0, 0] ![2, 5] 1 0 ⟨![2, 3], ![0, 0], 0⟩ = none :=
  ⟨by with_unfolding_all decide,
   mirror_boundary_exact_no_ghost ![0, 0] ![2, 5] 1 0 ⟨![2, 3], ![0, 0], 0⟩
     (by with_unfolding_all decide)⟩

/-- Counterexample to claim C7: with reversed bounds the computed translation
`upper - lower = -5` is smaller than the particle spacing `1`, yet setup does
not fail — the code compares the Euclidean norm of the translation vector, not
the signed translation. -/
theorem periodic_translation_check_counterexample :
    (![-5, 0] : Vecd) 0 - (![0, 0] : Vecd) 0 < 1 ∧
      setPeriodicTranslation ![0, 0] ![-5, 0] 0 1 ≠ none := by
  with_unfolding_all decide

/-- Claim C7 as amended: for positive particle spacing, periodic boundary
setup fails fatally exactly when the magnitude `|upper - lower|` of the
computed translation is smaller than the particle spacing, and otherwise
succeeds storing that translation. -/
theorem periodic_translation_check (body_lower_bound body_upper_bound : Vecd)
    (axis : Fin 2) (particle_spacing : ℚ) (hs : 0 < particle_spacing) :
    (setPeriodicTranslation body_lower_bound body_upper_bound axis particle_spacing = none ↔
      |body_upper_bound axis - body_lower_bound axis| < particle_spacing) ∧
    ∀ t, setPeriodicTranslation body_lower_bound body_upper_bound axis particle_spacing =
        some t →
      t = periodicTranslationVec body_lower_bound body_upper_bound axis := by
  have hnorm : normSqr (periodicTranslationVec body_lower_bound body_upper_bound axis) =
      (body_upper_bound axis - body_lower_bound axis) ^ 2 := by
    fin_cases axis <;>
      simp [normSqr, periodicTranslationVec, Function.update] <;> ring
  have hiff : normSqr (periodicTranslationVec body_lower_bound body_upper_bound axis) <
      particle_spacing ^ 2 ↔
      |body_upper_bound axis - body_lower_bound axis| < particle_spacing := by
    rw [hnorm, sq_lt_sq, abs_of_pos hs]
  constructor
  · rw [setPeriodicTranslation]
    constructor
    · intro h
      by_contra hc
      rw [if_neg (fun hand => hc (hiff.mp hand.2))] at h
      exact Option.some_ne_none _ h
    · intro h
      rw [if_pos ⟨hs, hiff.mpr h⟩]
  · intro t ht
    rw [setPeriodicTranslation] at ht
    split at ht
    · exact absurd ht (Option.noConfusion)
    · exact (Option.some.injEq _ _ ▸ ht).symm

/-- Witness for the amended C7: bounds `0` and `1/2` with spacing `1` — the
translation magnitude `1/2` is below the spacing, so setup fails. -/
theorem periodic_translation_check_witness :
    (0 : ℚ) < 1 ∧
      (setPeriodicTranslation ![0, 0] ![1/2, 0] 0 1 = none ↔
        |(![1/2, 0] : Vecd) 0 - (![0, 0] : Vecd) 0| < 1) ∧
      ∀ t, setPeriodicTranslation ![0, 0] ![1/2, 0] 0 1 = some t →
        t = periodicTranslationVec ![0, 0] ![1/2, 0] 0 :=
  ⟨by norm_num, periodic_translation_check ![0, 0] ![1/2, 0] 0 1 (by norm_num)⟩

/-- Claim C8: invoking the single-axis periodic boundary condition through the
generic entry points `exec` or `parallel_exec` is rejected unconditionally for
every time step and every particle state: both report the diagnostic and
terminate, producing no modified particle state. -/
theorem periodic_condition_generic_entry_rejected (particles : List Particle) (dt : ℚ) :
    periodicConditionExec particles dt =
        Except.error "\n Error: each step should be called separately." ∧
      periodicConditionParallelExec particles dt =
        Except.error "\n Error: each step should be called separately." :=
  ⟨rfl, rfl⟩

/-- Claim C10: the periodic wrapping pass moves a particle by exactly one
periodic translation along the periodic axis exactly when it lies strictly
outside the corresponding bound, touches nothing else, and a particle more
than one period outside is not brought back inside in a single invocation. -/
theorem periodic_bounding_frame (body_lower_bound body_upper_bound translation : Vecd)
    (axis : Fin 2) (p : Particle) (ht : 0 ≤ translation axis) :
    PeriodicBoundingSpec body_lower_bound body_upper_bound translation axis p := by
  unfold PeriodicBoundingSpec
  unfold periodicBoundingCheckLowerBound periodicBoundingCheckUpperBound
  refine ⟨?_, ?_, ?_, ?_, ?_, ?_, ?_, ?_, ?_, ?_, ?_, ?_⟩
  · intro h; rw [if_pos h]; simp
  · intro h; rw [if_neg h]
  · intro k hk
    split
    · simp [Function.update_noteq hk]
    · rfl
  · split <;> rfl
  · split <;> rfl
  · intro h; rw [if_pos h]; simp
  · intro h; rw [if_neg h]
  · intro k hk
    split
    · simp [Function.update_noteq hk]
    · rfl
  · split <;> rfl
  · split <;> rfl
  · intro h
    have hguard : p.pos axis < body_lower_bound axis := by linarith
    rw [if_pos hguard]
    simp only [Function.update_same]
    linarith
  · intro h
    have hguard : body_upper_bound axis < p.pos axis := by linarith
    rw [if_pos hguard]
    simp only [Function.update_same]
    linarith

/-- Witness for C10: a concrete particle three units below the lower bound of
the domain `[0, 10]` with translation `10`. -/
theorem periodic_bounding_frame_witness :
    (0 : ℚ) ≤ (![10, 0] : Vecd) 0 ∧
      PeriodicBoundingSpec ![0, 0] ![10, 10] ![10, 0] 0 ⟨![-3, 5], ![1, 2], 7⟩ :=
  ⟨by norm_num,
   periodic_bounding_frame ![0, 0] ![10, 10] ![10, 0] 0 ⟨![-3, 5], ![1, 2], 7⟩
     (by norm_num)⟩

/-- Claim C3: a real particle at `lower_bound + ε` (with `0 < ε < cell_spacing`)
has exactly one ghost counterpart at coordinate `upper_bound + ε` after the
periodic create pass, and symmetrically a particle at `upper_bound - ε` has
exactly one ghost counterpart at `lower_bound - ε`. -/
theorem periodic_ghost_counterpart (body_lower_bound body_upper_bound : Vecd)
    (cell_spacing : ℚ) (axis : Fin 2) (eps : ℚ) (pLow pUp : Vecd)
    (heps0 : 0 < eps) (heps : eps < cell_spacing)
    (hLow : pLow axis = body_lower_bound axis + eps)
    (hUp : pUp axis = body_upper_bound axis - eps) :
    ((periodicCreateGhostPositions body_lower_bound body_upper_bound cell_spacing axis
        pLow).filter fun g => decide (g axis = body_upper_bound axis + eps)).length = 1 ∧
    ((periodicCreateGhostPositions body_lower_bound body_upper_bound cell_spacing axis
        pUp).filter fun g => decide (g axis = body_lower_bound axis - eps)).length = 1 := by
  have htv : periodicTranslationVec body_lower_bound body_upper_bound axis axis =
      body_upper_bound axis - body_lower_bound axis := by
    simp [periodicTranslationVec]
  constructor
  · rw [periodicCreateGhostPositions, periodicGhostLower, periodicGhostUpper,
      if_pos ⟨by rw [hLow]; linarith, by rw [hLow]; linarith⟩]
    have hg1 : pLow axis + periodicTranslationVec body_lower_bound body_upper_bound axis axis =
        body_upper_bound axis + eps := by
      rw [htv, hLow]; ring
    by_cases hup : pLow axis < body_upper_bound axis ∧
        pLow axis > body_upper_bound axis - cell_spacing
    · rw [if_pos hup]
      have hne : ¬(pLow axis - periodicTranslationVec body_lower_bound body_upper_bound axis
          axis = body_upper_bound axis + eps) := by
        rw [htv, hLow]
        intro hcontra
        have h1 : body_lower_bound axis = body_upper_bound axis := by linarith
        have h2 := hup.1
        rw [hLow] at h2
        linarith
      simp [List.filter, Option.toList, hg1, hne]
    · rw [if_neg hup]
      simp [List.filter, Option.toList, hg1]
  · rw [periodicCreateGhostPositions, periodicGhostLower, periodicGhostUpper]
    have hg2 : pUp axis - periodicTranslationVec body_lower_bound body_upper_bound axis axis =
        body_lower_bound axis - eps := by
      rw [htv, hUp]; ring
    rw [if_pos (show pUp axis < body_upper_bound axis ∧
        pUp axis > body_upper_bound axis - cell_spacing from
      ⟨by rw [hUp]; linarith, by rw [hUp]; linarith⟩)]
    by_cases hlo : pUp axis > body_lower_bound axis ∧
        pUp axis < body_lower_bound axis + cell_spacing
    · rw [if_pos hlo]
      have hne : ¬(pUp axis + periodicTranslationVec body_lower_bound body_upper_bound axis
          axis = body_lower_bound axis - eps) := by
        rw [htv, hUp]
        intro hcontra
        have h1 : body_lower_bound axis = body_upper_bound axis := by linarith
        have h2 := hlo.1
        rw [hUp] at h2
        linarith
      simp [List.filter, Option.toList, hg2, hne]
    · rw [if_neg hlo]
      simp [List.filter, Option.toList, hg2]

/-- Witness for C3: domain `[0, 10]` along axis `0`, cell spacing `1`,
`ε = 1/2`, with particles at coordinate `1/2` and `19/2`. -/
theorem periodic_ghost_counterpart_witness :
    (0 : ℚ) < 1/2 ∧ (1/2 : ℚ) < 1 ∧
      (![1/2, 3] : Vecd) 0 = (![0, 0] : Vecd) 0 + 1/2 ∧
      (![19/2, 4] : Vecd) 0 = (![10, 10] : Vecd) 0 - 1/2 ∧
      (((periodicCreateGhostPositions ![0, 0] ![10, 10] 1 0 ![1/2, 3]).filter
        fun g => decide (g 0 = (![10, 10] : Vecd) 0 + 1/2)).length = 1 ∧
      ((periodicCreateGhostPositions ![0, 0] ![10, 10] 1 0 ![19/2, 4]).filter
        fun g => decide (g 0 = (![0, 0] : Vecd) 0 - 1/2)).length = 1) :=
  ⟨by norm_num, by norm_num, by norm_num, by norm_num,
   periodic_ghost_counterpart ![0, 0] ![10, 10] 1 0 (1/2) ![1/2, 3] ![19/2, 4]
     (by norm_num) (by norm_num) (by norm_num) (by norm_num)⟩

/-- The running state of the relation-build fold over accepted candidates:
slot count advances one per candidate, capacity becomes the larger of the old
capacity and the final count, slots below the starting count keep their
previous contents, and each accepted candidate lands in the slot its running
count named. -/
theorem writeNeighbor_fold_spec (accepted : List ℕ) (nb : Neighborhood) (c : ℕ)
    (h : c ≤ nb.memory_size) :
    ((accepted.foldl (fun (st : Neighborhood × ℕ) e =>
        (writeNeighbor st.1 st.2 e, st.2 + 1)) (nb, c)).1).memory_size =
        max nb.memory_size (c + accepted.length) ∧
    (∀ i, i < c →
      ((accepted.foldl (fun (st : Neighborhood × ℕ) e =>
        (writeNeighbor st.1 st.2 e, st.2 + 1)) (nb, c)).1).entries[i]? = nb.entries[i]?) ∧
    (∀ k, k < accepted.length →
      ((accepted.foldl (fun (st : Neighborhood × ℕ) e =>
        (writeNeighbor st.1 st.2 e, st.2 + 1)) (nb, c)).1).entries[c + k]? = accepted[k]?) ∧
    ((accepted.foldl (fun (st : Neighborhood × ℕ) e =>
        (writeNeighbor st.1 st.2 e, st.2 + 1)) (nb, c)).1).current_size_ = nb.current_size_ := by
  induction accepted generalizing nb c with
  | nil =>
    refine ⟨?_, fun i _ => rfl, fun k hk => absurd hk (Nat.not_lt_zero k), rfl⟩
    simp only [List.foldl_nil, List.length_nil, Nat.add_zero, Nat.max_eq_left h]
  | cons e rest ih =>
    simp only [List.foldl_cons]
    have hmem : (c < nb.memory_size ∧ (writeNeighbor nb c e).memory_size = nb.memory_size) ∨
        (c = nb.memory_size ∧ (writeNeighbor nb c e).memory_size = nb.memory_size + 1) := by
      unfold writeNeighbor
      by_cases hge : c ≥ nb.memory_size
      · right
        rw [if_pos hge]
        exact ⟨le_antisymm h hge, by simp [Neighborhood.memory_size]⟩
      · left
        rw [if_neg hge]
        exact ⟨lt_of_not_ge hge, by simp [Neighborhood.memory_size]⟩
    have hc1 : c + 1 ≤ (writeNeighbor nb c e).memory_size := by
      rcases hmem with ⟨h1, h2⟩ | ⟨h1, h2⟩ <;> omega
    obtain ⟨ih1, ih2, ih3, ih4⟩ := ih (writeNeighbor nb c e) (c + 1) hc1
    have hcslot : (writeNeighbor nb c e).entries[c]? = some e := by
      unfold writeNeighbor
      by_cases hge : c ≥ nb.memory_size
      · rw [if_pos hge]
        have hceq : c = nb.entries.length := le_antisymm h hge
        simp only [hceq]
        exact List.getElem?_concat_length _ _
      · rw [if_neg hge]
        exact List.getElem?_set_self (lt_of_not_ge hge)
    have hbelow : ∀ i, i < c → (writeNeighbor nb c e).entries[i]? = nb.entries[i]? := by
      intro i hi
      unfold writeNeighbor
      by_cases hge : c ≥ nb.memory_size
      · rw [if_pos hge]
        exact List.getElem?_append_left (lt_of_lt_of_le hi h)
      · rw [if_neg hge]
        exact List.getElem?_set_ne (Nat.ne_of_lt hi).symm
    refine ⟨?_, ?_, ?_, ?_⟩
    · rw [ih1]
      rcases hmem with ⟨h1, h2⟩ | ⟨h1, h2⟩ <;> rw [h2] <;> simp only [List.length_cons] <;>
        omega
    · intro i hi
      rw [ih2 i (by omega)]
      exact hbelow i hi
    · intro k hk
      cases k with
      | zero =>
        simpa [hcslot] using ih2 c (Nat.lt_succ_self c)
      | succ j =>
        have hj : j < rest.length := by
          simpa [List.length_cons] using hk
        rw [show c + (j + 1) = c + 1 + j from by omega]
        simpa using ih3 j hj
    · rw [ih4]
      unfold writeNeighbor
      by_cases hge : c ≥ nb.memory_size
      · rw [if_pos hge]
      · rw [if_neg hge]

/-- Claim C5: one relation-build step writes each accepted entry at the slot
named by its running count — overwriting in place below the existing capacity
and appending (capacity grows by one each time) once the count has reached
it — then sets `current_size_` to the accepted count; consequently the
capacity after the step is the maximum of the old capacity and the accepted
count, and in particular it never decreases across steps. -/
theorem neighborhood_overwrite_append_policy (nb : Neighborhood) (accepted : List ℕ) :
    (updateNeighborhood nb accepted).memory_size = max nb.memory_size accepted.length ∧
    nb.memory_size ≤ (updateNeighborhood nb accepted).memory_size ∧
    (updateNeighborhood nb accepted).current_size_ = accepted.length ∧
    ∀ k, k < accepted.length →
      (updateNeighborhood nb accepted).entries[k]? = accepted[k]? := by
  obtain ⟨h1, -, h3, -⟩ := writeNeighbor_fold_spec accepted nb 0 (Nat.zero_le _)
  have hmem : (updateNeighborhood nb accepted).memory_size =
      max nb.memory_size accepted.length := by
    simpa [updateNeighborhood, Neighborhood.memory_size] using h1
  refine ⟨hmem, ?_, rfl, ?_⟩
  · rw [hmem]
    exact le_max_left _ _
  · intro k hk
    simpa [updateNeighborhood] using h3 k hk

/-- Witness for C5: a neighborhood of capacity `3` rebuilt with two accepted
entries keeps capacity `3`, and one of capacity `1` rebuilt with three
accepted entries grows to capacity `3`. -/
theorem neighborhood_overwrite_append_policy_witness :
    ((updateNeighborhood ⟨[9, 9, 9], 3⟩ [1, 2]).memory_size =
        max (Neighborhood.mk [9, 9, 9] 3).memory_size [1, 2].length ∧
      (Neighborhood.mk [9, 9, 9] 3).memory_size ≤
        (updateNeighborhood ⟨[9, 9, 9], 3⟩ [1, 2]).memory_size ∧
      (updateNeighborhood ⟨[9, 9, 9], 3⟩ [1, 2]).current_size_ = [1, 2].length ∧
      ∀ k, k < [1, 2].length →
        (updateNeighborhood ⟨[9, 9, 9], 3⟩ [1, 2]).entries[k]? = [1, 2][k]?) ∧
    (updateNeighborhood ⟨[9], 1⟩ [4, 5, 6]).memory_size =
      max (Neighborhood.mk [9] 1).memory_size [4, 5, 6].length :=
  ⟨neighborhood_overwrite_append_policy ⟨[9, 9, 9], 3⟩ [1, 2],
   (neighborhood_overwrite_append_policy ⟨[9], 1⟩ [4, 5, 6]).1⟩

/-- Witness for C8: the generic entry points reject the empty particle state
at `dt = 0`. -/
theorem periodic_condition_generic_entry_rejected_witness :
    periodicConditionExec [] 0 =
        Except.error "\n Error: each step should be called separately." ∧
      periodicConditionParallelExec [] 0 =
        Except.error "\n Error: each step should be called separately." :=
  periodic_condition_generic_entry_rejected [] 0

/-- Claim C9, evaluated at the failing input: for a body consisting of one
particle at position `(-1, -1)` (all coordinates negative), `BodyUpperBound`
returns the seed `min_real_number = 2^(-1022)` — a tiny positive sentinel —
rather than the componentwise maximum `-1` of the particle positions, because
`initial_reference_` is `(std::numeric_limits<double>::min)()` instead of the
most negative double. `BodyLowerBound` on the same input is correct. -/
theorem body_upper_bound_sentinel_bug :
    bodyUpperBound [![-1, -1]] 0 = min_real_number ∧
    bodyUpperBound [![-1, -1]] 0 ≠ -1 ∧
    (0 : ℚ) < min_real_number ∧
    bodyLowerBound [![-1, -1]] 0 = -1 := by
  have hpos : (0 : ℚ) < min_real_number := by
    unfold min_real_number
    positivity
  have hmax : (-1 : ℚ) ≤ max_real_number := by
    have h52 : ((1 : ℚ) / 2) ^ 52 ≤ 1 := pow_le_one₀ (by norm_num) (by norm_num)
    have : (0 : ℚ) < (2 - (1 / 2) ^ 52) * 2 ^ 1023 := by positivity
    unfold max_real_number
    linarith
  have h1 : bodyUpperBound [![-1, -1]] 0 = max min_real_number (-1) := by
    simp [bodyUpperBound, particleReduce, reduceUpperBoundOp]
  have h2 : bodyLowerBound [![-1, -1]] 0 = min max_real_number (-1) := by
    simp [bodyLowerBound, particleReduce, reduceLowerBoundOp]
  refine ⟨?_, ?_, hpos, ?_⟩
  · rw [h1, max_eq_left (by linarith)]
  · rw [h1, max_eq_left (by linarith)]
    intro hcontra
    rw [hcontra] at hpos
    linarith
  · rw [h2, min_eq_right hmax]

/-- Membership in the integer loop range `[a, b]`. -/
theorem mem_intRange {a b l : ℤ} : l ∈ intRange a b ↔ a ≤ l ∧ l ≤ b := by
  simp only [intRange, List.mem_map, List.mem_range]
  constructor
  · rintro ⟨k, hk, rfl⟩
    omega
  · rintro ⟨h1, h2⟩
    exact ⟨(l - a).toNat, by omega, by omega⟩

/-- Claim C6: every cell index visited by the relation builder's clamped
window loop lies within `[0, number_of_cells - 1]` in its dimension, for every
particle position (clamping already confines the home cell, and the window
bounds clamp again) and every search range, so the per-particle cell accesses
are all in range. -/
theorem search_window_in_range (mesh_lower_bound : Vecd) (cell_spacing : ℚ)
    (number_of_cells : Fin 2 → ℕ) (particle_position : Vecd) (search_range : ℤ) :
    (∀ l ∈ searchWindow (gridIndexFromPosition mesh_lower_bound cell_spacing
        number_of_cells particle_position 0) search_range (number_of_cells 0),
      0 ≤ l ∧ l ≤ (number_of_cells 0 : ℤ) - 1) ∧
    (∀ m ∈ searchWindow (gridIndexFromPosition mesh_lower_bound cell_spacing
        number_of_cells particle_position 1) search_range (number_of_cells 1),
      0 ≤ m ∧ m ≤ (number_of_cells 1 : ℤ) - 1) := by
  constructor <;>
  · intro l hl
    rw [searchWindow, mem_intRange] at hl
    obtain ⟨h1, h2⟩ := hl
    exact ⟨le_trans (le_max_right _ _) h1, le_trans h2 (min_le_right _ _)⟩

/-- Witness for C6: a 4×4 grid over `[0,4)²` with the particle in its corner
cell; the window cell `0` is visited and is in range. -/
theorem search_window_in_range_witness :
    (0 : ℤ) ∈ searchWindow (gridIndexFromPosition ![0, 0] 1 ![4, 4] ![0, 0] 0) 1 4 ∧
      ((0 : ℤ) ≤ 0 ∧ (0 : ℤ) ≤ (4 : ℤ) - 1) :=
  ⟨by with_unfolding_all decide,
   (search_window_in_range ![0, 0] 1 ![4, 4] ![0, 0] 1).1 0
     (by with_unfolding_all decide)⟩

/-- Each coordinate of a displacement is bounded by the cutoff when its
squared norm is bounded by the squared cutoff. -/
theorem coord_abs_le_of_normSqr_le {v : Vecd} {c : ℚ} (hc : 0 ≤ c)
    (h : normSqr v ≤ c ^ 2) (k : Fin 2) : |v k| ≤ c := by
  unfold normSqr at h
  have h0 := mul_self_nonneg (v 0)
  have h1 := mul_self_nonneg (v 1)
  have key : ∀ x : ℚ, x * x ≤ c ^ 2 → |x| ≤ c := fun x hx =>
    abs_le_of_sq_le_sq (by nlinarith) hc
  fin_cases k
  · exact key (v 0) (by linarith)
  · exact key (v 1) (by linarith)

/-- Two positions at most one cell spacing apart have floor cell coordinates
at most one apart. -/
theorem floor_div_dist_le_one {x y L s : ℚ} (hs : 0 < s) (h : |x - y| ≤ s) :
    ⌊(x - L) / s⌋ ≤ ⌊(y - L) / s⌋ + 1 ∧ ⌊(y - L) / s⌋ ≤ ⌊(x - L) / s⌋ + 1 := by
  have habs : |(x - L) / s - (y - L) / s| ≤ 1 := by
    have heq : (x - L) / s - (y - L) / s = (x - y) / s := by ring
    rw [heq, abs_div, abs_of_pos hs]
    exact (div_le_one hs).mpr h
  obtain ⟨ha, hb⟩ := abs_le.mp habs
  constructor
  · calc ⌊(x - L) / s⌋ ≤ ⌊(y - L) / s + 1⌋ := Int.floor_le_floor (by linarith)
    _ = ⌊(y - L) / s⌋ + 1 := Int.floor_add_one _
  · calc ⌊(y - L) / s⌋ ≤ ⌊(x - L) / s + 1⌋ := Int.floor_le_floor (by linarith)
    _ = ⌊(x - L) / s⌋ + 1 := Int.floor_add_one _

/-- Inside the grid slab the clamped cell index is the plain floor index and
lies in `[0, n-1]`. -/
theorem gridIndex1D_of_inBounds {L s x : ℚ} {n : ℕ} (hs : 0 < s)
    (h1 : L ≤ x) (h2 : x < L + n * s) :
    gridIndex1D L s n x = ⌊(x - L) / s⌋ ∧
      0 ≤ ⌊(x - L) / s⌋ ∧ ⌊(x - L) / s⌋ ≤ (n : ℤ) - 1 := by
  have hnonneg : 0 ≤ ⌊(x - L) / s⌋ := Int.floor_nonneg.mpr (div_nonneg (by linarith) hs.le)
  have hlt : ⌊(x - L) / s⌋ < (n : ℤ) := by
    rw [Int.floor_lt, div_lt_iff₀ hs]
    push_cast
    linarith
  refine ⟨?_, hnonneg, by omega⟩
  unfold gridIndex1D
  rw [max_eq_left hnonneg, min_eq_left (by omega)]

/-- A position within one cell spacing of the query position, both in bounds,
has its cell inside the clamped search window of the query's home cell. -/
theorem cell_in_window_of_near {L s x y : ℚ} {n : ℕ} {sr : ℤ} (hs : 0 < s)
    (hsr : 1 ≤ sr) (hxy : |x - y| ≤ s)
    (hx1 : L ≤ x) (hx2 : x < L + n * s) (hy1 : L ≤ y) (hy2 : y < L + n * s) :
    gridIndex1D L s n y ∈ searchWindow (gridIndex1D L s n x) sr n := by
  obtain ⟨hex, hx0, hxn⟩ := gridIndex1D_of_inBounds hs hx1 hx2
  obtain ⟨hey, hy0, hyn⟩ := gridIndex1D_of_inBounds hs hy1 hy2
  obtain ⟨hd1, hd2⟩ := floor_div_dist_le_one (L := L) hs hxy
  rw [searchWindow, mem_intRange, hex, hey]
  constructor
  · apply max_le <;> omega
  · apply le_min <;> omega

/-- Membership in the cell-window search result, characterized: an index is
reported exactly when it belongs to a source entry within the cutoff whose
cell lies in both window dimensions. -/
theorem mem_updateConfigurationForParticle
    {target_particles : List (ℕ × Vecd)} {mesh_lower_bound : Vecd} {cell_spacing : ℚ}
    {number_of_cells : Fin 2 → ℕ} {search_range : ℤ} {cutoff_radius_sqr : ℚ}
    {particle_position : Vecd} {n : ℕ} :
    n ∈ updateConfigurationForParticle target_particles mesh_lower_bound cell_spacing
        number_of_cells search_range cutoff_radius_sqr particle_position ↔
      ∃ e ∈ target_particles,
        e.1 = n ∧
        normSqr (particle_position - e.2) ≤ cutoff_radius_sqr ∧
        gridIndexFromPosition mesh_lower_bound cell_spacing number_of_cells e.2 0 ∈
          searchWindow (gridIndexFromPosition mesh_lower_bound cell_spacing number_of_cells
            particle_position 0) search_range (number_of_cells 0) ∧
        gridIndexFromPosition mesh_lower_bound cell_spacing number_of_cells e.2 1 ∈
          searchWindow (gridIndexFromPosition mesh_lower_bound cell_spacing number_of_cells
            particle_position 1) search_range (number_of_cells 1) := by
  unfold updateConfigurationForParticle cellListData
  simp only [List.mem_flatMap, List.mem_map, List.mem_filter, decide_eq_true_eq,
    Bool.and_eq_true]
  constructor
  · rintro ⟨l, hl, m, hm, e, ⟨⟨he, hcell0, hcell1⟩, hdist⟩, rfl⟩
    exact ⟨e, he, rfl, hdist, hcell0 ▸ hl, hcell1 ▸ hm⟩
  · rintro ⟨e, he, rfl, hdist, h0, h1⟩
    exact ⟨_, h0, _, h1, e, ⟨⟨he, rfl, rfl⟩, hdist⟩, rfl⟩

/-- Claim C1: when every position lies within the grid bounds and the grid
invariant `cell_spacing ≥ cutoff_radius` holds (with a search range of at
least one cell), the neighbor set produced by the cell-window search equals
the neighbor set of the exhaustive all-pairs search at the same cutoff — no
false negatives and no false positives. -/
theorem grid_search_equals_all_pairs (target_particles : List (ℕ × Vecd))
    (mesh_lower_bound : Vecd) (cell_spacing : ℚ) (number_of_cells : Fin 2 → ℕ)
    (search_range : ℤ) (cutoff_radius : ℚ) (particle_position : Vecd)
    (hspacing : 0 < cell_spacing) (hcut0 : 0 ≤ cutoff_radius)
    (hcut : cutoff_radius ≤ cell_spacing) (hsr : 1 ≤ search_range)
    (hbounds : ∀ e ∈ target_particles,
      inGridBounds mesh_lower_bound cell_spacing number_of_cells e.2)
    (hposition : inGridBounds mesh_lower_bound cell_spacing number_of_cells
      particle_position) :
    ∀ n, n ∈ updateConfigurationForParticle target_particles mesh_lower_bound cell_spacing
        number_of_cells search_range (cutoff_radius ^ 2) particle_position ↔
      n ∈ allPairsNeighbors target_particles (cutoff_radius ^ 2) particle_position := by
  intro n
  rw [mem_updateConfigurationForParticle]
  unfold allPairsNeighbors
  simp only [List.mem_map, List.mem_filter, decide_eq_true_eq]
  constructor
  · rintro ⟨e, he, rfl, hdist, -, -⟩
    exact ⟨e, ⟨he, hdist⟩, rfl⟩
  · rintro ⟨e, ⟨he, hdist⟩, rfl⟩
    refine ⟨e, he, rfl, hdist, ?_, ?_⟩
    · have hxy : |particle_position 0 - e.2 0| ≤ cell_spacing := by
        have hco := coord_abs_le_of_normSqr_le hcut0 hdist 0
        rw [Pi.sub_apply] at hco
        exact le_trans hco hcut
      simp only [gridIndexFromPosition]
      exact cell_in_window_of_near hspacing hsr hxy (hposition 0).1 (hposition 0).2
        ((hbounds e he) 0).1 ((hbounds e he) 0).2
    · have hxy : |particle_position 1 - e.2 1| ≤ cell_spacing := by
        have hco := coord_abs_le_of_normSqr_le hcut0 hdist 1
        rw [Pi.sub_apply] at hco
        exact le_trans hco hcut
      simp only [gridIndexFromPosition]
      exact cell_in_window_of_near hspacing hsr hxy (hposition 1).1 (hposition 1).2
        ((hbounds e he) 1).1 ((hbounds e he) 1).2

/-- Witness for C1: three particles on a 4×4 unit grid over `[0,4)²`, query at
the origin with cutoff `1` and search range `1`; index `0` is reported by both
searches. -/
theorem grid_search_equals_all_pairs_witness :
    (0 : ℚ) < 1 ∧ (0 : ℚ) ≤ 1 ∧ (1 : ℚ) ≤ 1 ∧ (1 : ℤ) ≤ 1 ∧
      (∀ e ∈ [((0 : ℕ), (![0, 0] : Vecd)), (1, ![1, 1]), (2, ![3, 3])],
        inGridBounds ![0, 0] 1 ![4, 4] e.2) ∧
      inGridBounds ![0, 0] 1 ![4, 4] ![0, 0] ∧
      (0 ∈ updateConfigurationForParticle
          [((0 : ℕ), (![0, 0] : Vecd)), (1, ![1, 1]), (2, ![3, 3])]
          ![0, 0] 1 ![4, 4] 1 (1 ^ 2) ![0, 0] ↔
        0 ∈ allPairsNeighbors [((0 : ℕ), (![0, 0] : Vecd)), (1, ![1, 1]), (2, ![3, 3])]
          (1 ^ 2) ![0, 0]) :=
  ⟨by norm_num, by norm_num, by norm_num, by norm_num,
   by with_unfolding_all decide, by with_unfolding_all decide,
   grid_search_equals_all_pairs _ _ _ _ _ _ _ (by norm_num) (by norm_num) (by norm_num)
     (by norm_num) (by with_unfolding_all decide) (by with_unfolding_all decide) 0⟩

end SPHVerify
